import Mathlib

/-!
# Verification of the accessibot adaptive AI request scheduler

Shallow embedding of the core subsystem of `Julas-core/accessibot-app`:
the priority-aware adaptive `BatchProcessor`, the `AIProviderManager`
(cost-aware selection, fallback, circuit breaking), the fingerprint
cache, the sliding-window `RateLimiter`, and the enrichment entry point
`enhanceIssuesWithAI` / `parseBatchResponse`.

Conventions of the embedding:
* JavaScript numbers are modelled with `Nat`/`Int` where the source uses
  integer values (sizes, delays, timestamps, token counts) and with `Rat`
  where the source computes fractional quantities (error rate, average
  response time, costs, scores).  The decimal multipliers `0.7`, `0.8`,
  `0.9`, `1.2`, `1.5` of the source are modelled exactly as rationals;
  at the integer magnitudes the claims exercise, IEEE-754 evaluation of
  `Math.floor(n * c)` agrees with the exact rational floor.
* Asynchronous effects (SQL tables, provider network calls, timers) are
  modelled by explicit state passing: tables become lists of rows, a
  provider call becomes an oracle parameter, a `setTimeout` re-enable
  becomes a recorded `(provider, reEnableAt)` entry.
* `async` functions that can throw become functions into `Except`.
-/

/- ## Adaptive batch processor (src/unnamed/part_001, class BatchProcessor) -/

/-- Configuration of the adaptive batch processor
(`BatchProcessorConfig`, src/unnamed/part_001 lines 86-96). -/
structure BatchProcessorConfig where
  initialBatchSize : Nat
  minBatchSize : Nat
  maxBatchSize : Nat
  initialDelayMs : Nat
  minDelayMs : Nat
  maxDelayMs : Nat
  targetResponseTimeMs : Nat
  maxErrorRate : Rat
  adjustmentInterval : Nat
deriving Repr, DecidableEq

/-- The concrete configuration used by the AI service
(`batchProcessorConfig`, src/backend/accessibot/ai-service.ts lines 41-51). -/
def batchProcessorConfig : BatchProcessorConfig :=
  { initialBatchSize := 3
    minBatchSize := 1
    maxBatchSize := 8
    initialDelayMs := 2000
    minDelayMs := 1000
    maxDelayMs := 5000
    targetResponseTimeMs := 15000
    maxErrorRate := 1/5
    adjustmentInterval := 3 }

/-- A queued item (`PriorityBatchItem`, src/unnamed/part_001 lines 72-76).
The extra `callId` field models the identity of the `add()` invocation that
created the item, so that alignment with the resolver created by the same
call can be stated; it does not influence any computation. -/
structure PriorityBatchItem (T : Type) where
  item : T
  priority : Int
  addedAt : Nat
  callId : Nat
deriving Repr, DecidableEq

/-- A pending promise resolver stored by `add()`
(src/unnamed/part_001 lines 105-109, 152).  The `resolve`/`reject`
closures of the source are opaque; `callId` models which `add()` call
created them. -/
structure BatchResolver where
  callId : Nat
  priority : Int
deriving Repr, DecidableEq

/-- Mutable state of one `BatchProcessor` instance
(src/unnamed/part_001 lines 100-115).  The armed-timer flag and the
processor closure are environmental and not part of the claims. -/
structure BatchState (T : Type) where
  queue : List (PriorityBatchItem T)
  resolvers : List BatchResolver
  currentBatchSize : Nat
  currentDelayMs : Nat
  totalProcessed : Nat
  totalErrors : Nat
  responseTimes : List Nat
  batchCount : Nat
deriving Repr, DecidableEq

/-- The insertion index computed by the `while` loop of `add()`
(src/unnamed/part_001 lines 144-147): the number of leading queue entries
whose priority is `≥` the new item's priority. -/
def findInsertIndex (p : Int) : List (PriorityBatchItem T) → Nat
  | [] => 0
  | x :: xs => if p ≤ x.priority then findInsertIndex p xs + 1 else 0

/-- The synchronous queue mutation performed by `add()`
(src/unnamed/part_001 lines 134-153): the item and a resolver tagged with
the same call are spliced into `queue` and `resolvers` at the same index. -/
def batchAdd (st : BatchState T) (item : T) (priority : Int) (nowMs callId : Nat) :
    BatchState T :=
  let idx := findInsertIndex priority st.queue
  { st with
    queue := st.queue.insertIdx idx ⟨item, priority, nowMs, callId⟩
    resolvers := st.resolvers.insertIdx idx ⟨callId, priority⟩ }

/-- The batch extraction step of `processBatch()`
(src/unnamed/part_001 lines 171-173): splice the first
`min(currentBatchSize, queue.length)` items and resolvers off the front.
Returns the extracted batch and resolvers together with the new state. -/
def processBatchSplit (st : BatchState T) :
    (List (PriorityBatchItem T) × List BatchResolver) × BatchState T :=
  let n := min st.currentBatchSize st.queue.length
  ((st.queue.take n, st.resolvers.take n),
   { st with queue := st.queue.drop n, resolvers := st.resolvers.drop n })

/-- Outcome of one pending promise after a flush
(src/unnamed/part_001 lines 193-208). -/
inductive SettleOutcome (R E : Type) where
  /-- `currentResolvers[i].resolve(results[i])` -/
  | resolved : R → SettleOutcome R E
  /-- `reject(new Error('No result for batch item'))` -/
  | noResultError : SettleOutcome R E
  /-- `reject(error)` in the catch block -/
  | rejectedWith : E → SettleOutcome R E
deriving Repr, DecidableEq

/-- Positional settlement of the extracted resolvers from the processor's
outcome (src/unnamed/part_001 lines 183-209): on success, position `i` is
resolved with `results[i]` when it exists and rejected with the dedicated
no-result error otherwise; an exception rejects every position with the
raised error.  (`results[i] !== undefined` is `i < results.length` here,
since the result type has no `undefined` member.) -/
def settleResolvers (resolvers : List BatchResolver) (procResult : Except E (List R)) :
    List (SettleOutcome R E) :=
  match procResult with
  | .error e => resolvers.map fun _ => .rejectedWith e
  | .ok results =>
      (List.range resolvers.length).map fun i =>
        match results[i]? with
        | some r => .resolved r
        | none => .noResultError

/-- The parameter adjustment of `adjustBatchParameters()`
(src/unnamed/part_001 lines 243-282), as a pure function of the current
size/delay and the observed rolling statistics.  `Math.floor(n * 0.7)` is
`n * 7 / 10` in exact arithmetic, and so on; returns
`(newBatchSize, newDelayMs)`. -/
def adjustBatchParameters (cfg : BatchProcessorConfig)
    (batchSize delayMs : Nat) (averageResponseTime errorRate : Rat) : Nat × Nat :=
  if errorRate > cfg.maxErrorRate then
    (max cfg.minBatchSize (batchSize * 7 / 10),
     min cfg.maxDelayMs (delayMs * 3 / 2))
  else if averageResponseTime > (cfg.targetResponseTimeMs : Rat) then
    (max cfg.minBatchSize (batchSize * 4 / 5), delayMs)
  else if averageResponseTime < (cfg.targetResponseTimeMs : Rat) * (1/2) ∧
      errorRate < cfg.maxErrorRate * (1/2) then
    (min cfg.maxBatchSize (batchSize * 12 / 10),
     max cfg.minDelayMs (delayMs * 9 / 10))
  else
    (batchSize, delayMs)

/-- The post-flush bookkeeping of `processBatch()`
(src/unnamed/part_001 lines 211-216): the batch counter is incremented and
the parameters are adjusted exactly when it reaches a multiple of
`adjustmentInterval`.  Returns `(newBatchCount, (newBatchSize, newDelayMs))`. -/
def postFlushAdjust (cfg : BatchProcessorConfig) (batchCount batchSize delayMs : Nat)
    (averageResponseTime errorRate : Rat) : Nat × (Nat × Nat) :=
  let bc := batchCount + 1
  (bc,
   if bc % cfg.adjustmentInterval = 0 then
     adjustBatchParameters cfg batchSize delayMs averageResponseTime errorRate
   else (batchSize, delayMs))

/- ## Claim C1: adaptive sizing, good-performance path -/

/-- C1 (counterexample): at an adjustment point with the service's real
configuration, rolling average response time 1000ms (< half of the 15000ms
target) and error rate 0 (< half of the 0.2 maximum), the batch size does
NOT increase: `Math.floor(3 * 1.2) = 3`, so the new size equals the old
size 3 while the delay is reduced to 1800ms.  The claim's "currentBatchSize
must increase" is therefore false as stated. -/
theorem adaptive_good_path_counterexample :
    (1000 : Rat) < (batchProcessorConfig.targetResponseTimeMs : Rat) * (1/2) ∧
    (0 : Rat) < batchProcessorConfig.maxErrorRate * (1/2) ∧
    (2 + 1) % batchProcessorConfig.adjustmentInterval = 0 ∧
    postFlushAdjust batchProcessorConfig 2 3 2000 1000 0 = (3, (3, 1800)) ∧
    ¬ 3 < (postFlushAdjust batchProcessorConfig 2 3 2000 1000 0).2.1 := by
  refine ⟨by norm_num [batchProcessorConfig], by norm_num [batchProcessorConfig], by decide, ?_, ?_⟩ <;>
    simp [postFlushAdjust, adjustBatchParameters, batchProcessorConfig] <;> norm_num

/-- C1 (amended): at an adjustment point, if the rolling average response
time is below half of `targetResponseTimeMs` and the (nonnegative) error
rate is below half of `maxErrorRate`, the new batch size is
`min maxBatchSize ⌊1.2 * size⌋` — never below the old size while the old
size is within `maxBatchSize`, though not necessarily a strict increase —
and the new delay is `max minDelayMs ⌊0.9 * delay⌋`, hence at least
`minDelayMs`. -/
theorem adaptive_good_path_amended (cfg : BatchProcessorConfig)
    (batchCount batchSize delayMs : Nat) (avg err : Rat)
    (hbc : (batchCount + 1) % cfg.adjustmentInterval = 0)
    (h0 : 0 ≤ err)
    (havg : avg < (cfg.targetResponseTimeMs : Rat) * (1/2))
    (herr : err < cfg.maxErrorRate * (1/2)) :
    (postFlushAdjust cfg batchCount batchSize delayMs avg err).2 =
      (min cfg.maxBatchSize (batchSize * 12 / 10),
       max cfg.minDelayMs (delayMs * 9 / 10)) ∧
    (batchSize ≤ cfg.maxBatchSize →
      batchSize ≤ (postFlushAdjust cfg batchCount batchSize delayMs avg err).2.1) ∧
    cfg.minDelayMs ≤ (postFlushAdjust cfg batchCount batchSize delayMs avg err).2.2 := by
  have htgt : (0 : Rat) ≤ (cfg.targetResponseTimeMs : Rat) := Nat.cast_nonneg _
  have h1 : ¬ err > cfg.maxErrorRate := by
    push_neg
    nlinarith [herr, h0]
  have h2 : ¬ avg > (cfg.targetResponseTimeMs : Rat) := by
    push_neg
    nlinarith [havg, htgt]
  have hres : (postFlushAdjust cfg batchCount batchSize delayMs avg err).2 =
      (min cfg.maxBatchSize (batchSize * 12 / 10),
       max cfg.minDelayMs (delayMs * 9 / 10)) := by
    simp only [postFlushAdjust, adjustBatchParameters, hbc, if_true, if_neg h1, if_neg h2,
      if_pos (And.intro havg herr)]
  refine ⟨hres, ?_, ?_⟩
  · intro hle
    rw [hres]
    have : batchSize ≤ batchSize * 12 / 10 :=
      Nat.le_div_iff_mul_le (by norm_num) |>.2 (by omega)
    exact le_min hle this
  · rw [hres]
    exact le_max_left _ _

/-- C1 (witness for the amended theorem): concrete instantiation with the
real configuration, size 5, delay 2000, average 1000ms, error rate 0. -/
theorem adaptive_good_path_witness :
    (postFlushAdjust batchProcessorConfig 2 5 2000 1000 0).2 = (6, 1800) :=
  (adaptive_good_path_amended batchProcessorConfig 2 5 2000 1000 0
    (by decide) (by norm_num) (by norm_num [batchProcessorConfig])
    (by norm_num [batchProcessorConfig])).1.trans (by norm_num [batchProcessorConfig])

/- ## Claim C3: priority ordering of the batch queue -/

theorem findInsertIndex_le_length (p : Int) (q : List (PriorityBatchItem T)) :
    findInsertIndex p q ≤ q.length := by
  induction q with
  | nil => simp [findInsertIndex]
  | cons x xs ih =>
    simp only [findInsertIndex, List.length_cons]
    split <;> omega

/-- The insertion of `add()` places the new item exactly after every queued
item of priority `≥ p` and before every later item: the stable position
among equal priorities. -/
theorem insertIdx_findInsertIndex (p : Int) (a : PriorityBatchItem T)
    (q : List (PriorityBatchItem T)) :
    q.insertIdx (findInsertIndex p q) a =
      q.takeWhile (fun x => decide (p ≤ x.priority)) ++
        a :: q.dropWhile (fun x => decide (p ≤ x.priority)) := by
  induction q with
  | nil => rfl
  | cons x xs ih =>
    by_cases h : p ≤ x.priority
    · simp [findInsertIndex, h, List.takeWhile_cons, List.dropWhile_cons, ih]
    · simp [findInsertIndex, h, List.takeWhile_cons, List.dropWhile_cons]

/-- Descending-priority order of the queue. -/
def QueueSortedDesc (q : List (PriorityBatchItem T)) : Prop :=
  q.Pairwise fun a b => b.priority ≤ a.priority

theorem sortedDesc_insert (a : PriorityBatchItem T) (q : List (PriorityBatchItem T))
    (hq : QueueSortedDesc q) :
    QueueSortedDesc (q.insertIdx (findInsertIndex a.priority q) a) := by
  induction q with
  | nil => simp [QueueSortedDesc, findInsertIndex]
  | cons x xs ih =>
    obtain ⟨hx, hxs⟩ := List.pairwise_cons.mp hq
    by_cases h : a.priority ≤ x.priority
    · simp only [findInsertIndex, if_pos h, List.insertIdx_succ_cons]
      refine List.Pairwise.cons ?_ (ih hxs)
      intro y hy
      rw [insertIdx_findInsertIndex] at hy
      rcases List.mem_append.1 hy with h1 | h2
      · exact hx y (List.takeWhile_subset _ h1)
      · rcases List.mem_cons.1 h2 with rfl | h3
        · exact h
        · exact hx y (List.dropWhile_subset _ h3)
    · simp only [findInsertIndex, if_neg h, List.insertIdx_zero]
      refine List.Pairwise.cons ?_ (List.Pairwise.cons hx hxs)
      intro y hy
      rcases List.mem_cons.1 hy with rfl | hmem
      · exact le_of_lt (not_le.1 h)
      · exact le_trans (hx y hmem) (le_of_lt (not_le.1 h))

/-- A freshly constructed `BatchProcessor` state
(src/unnamed/part_001 lines 117-132), with the given size and delay. -/
def emptyBatchState (T : Type) (batchSize delayMs : Nat) : BatchState T :=
  { queue := [], resolvers := [], currentBatchSize := batchSize,
    currentDelayMs := delayMs, totalProcessed := 0, totalErrors := 0,
    responseTimes := [], batchCount := 0 }

/-- The queue obtained by enqueuing items with priorities `[5, 10, 1, 10]`
(spec §8, "Priority ordering"). -/
def exampleQueueState : BatchState String :=
  batchAdd (batchAdd (batchAdd (batchAdd
    (emptyBatchState String 4 2000) "a" 5 0 0) "b" 10 1 1) "c" 1 2 2) "d" 10 3 3

/-- C3: `add()` maintains descending-priority order, stably for equal
priorities — the new item lands exactly after all items of priority `≥ p`
(first conjunct) and the queue stays descending (second conjunct) — and
enqueuing priorities `[5, 10, 1, 10]` then flushing with batch size 4
processes them in order `[10, 10, 5, 1]` with the two priority-10 items
in their original enqueue order (`"b"` before `"d"`). -/
theorem priority_queue_ordering {T : Type} (st : BatchState T) (item : T)
    (p : Int) (nowMs cid : Nat) (hq : QueueSortedDesc st.queue) :
    (batchAdd st item p nowMs cid).queue =
      st.queue.takeWhile (fun x => decide (p ≤ x.priority)) ++
        ⟨item, p, nowMs, cid⟩ :: st.queue.dropWhile (fun x => decide (p ≤ x.priority)) ∧
    QueueSortedDesc (batchAdd st item p nowMs cid).queue ∧
    ((processBatchSplit exampleQueueState).1.1.map fun x => (x.item, x.priority)) =
      [("b", 10), ("d", 10), ("a", 5), ("c", 1)] := by
  refine ⟨insertIdx_findInsertIndex p _ st.queue, ?_, by decide⟩
  exact sortedDesc_insert ⟨item, p, nowMs, cid⟩ st.queue hq

/-- C3 (witness): instantiation on a singleton-building step and the
concrete `[5, 10, 1, 10]` example. -/
theorem priority_queue_ordering_witness :
    QueueSortedDesc (batchAdd (emptyBatchState String 4 2000) "a" 5 0 0).queue ∧
    ((processBatchSplit exampleQueueState).1.1.map fun x => (x.item, x.priority)) =
      [("b", 10), ("d", 10), ("a", 5), ("c", 1)] :=
  ⟨(priority_queue_ordering (emptyBatchState String 4 2000) "a" 5 0 0 List.Pairwise.nil).2.1,
   (priority_queue_ordering (emptyBatchState String 4 2000) "a" 5 0 0 List.Pairwise.nil).2.2⟩

/- ## Claim C7: positional batch resolution in the scheduler -/

/-- C7: after a flush, the `i`-th pending promise is resolved with the
`i`-th processor result; a position beyond the processor's result list is
rejected with the dedicated no-result ("incomplete batch") error; a
processor exception rejects every promise of the flush with the raised
error.  Stated for every position `i` of the extracted resolver list. -/
theorem positional_resolution {R E : Type} (resolvers : List BatchResolver)
    (rs : List R) (e : E) (i : Nat) (hi : i < resolvers.length) :
    (settleResolvers (E := E) resolvers (Except.ok rs))[i]? =
      some (match rs[i]? with
            | some r => SettleOutcome.resolved r
            | none => SettleOutcome.noResultError) ∧
    (rs.length ≤ i →
      (settleResolvers (E := E) resolvers (Except.ok rs))[i]? =
        some (SettleOutcome.noResultError)) ∧
    (settleResolvers (E := E) (R := R) resolvers (Except.error e))[i]? =
      some (SettleOutcome.rejectedWith e) ∧
    (settleResolvers (E := E) resolvers (Except.ok rs)).length = resolvers.length := by
  refine ⟨?_, ?_, ?_, ?_⟩
  · simp [settleResolvers, List.getElem?_map, List.getElem?_range hi]
  · intro hle
    simp [settleResolvers, List.getElem?_map, List.getElem?_range hi,
      List.getElem?_eq_none hle]
  · simp [settleResolvers, List.getElem?_replicate, hi]
  · simp [settleResolvers]

/-- C7 (witness): a flush of three resolvers whose processor returned two
results resolves positions 0 and 1 and rejects position 2 with the
no-result error; a throwing processor rejects position 0 with the error. -/
theorem positional_resolution_witness :
    (settleResolvers [⟨0, 1⟩, ⟨1, 1⟩, ⟨2, 1⟩] (Except.ok ["r0", "r1"]))[2]? =
      some (SettleOutcome.noResultError (R := String) (E := String)) ∧
    (settleResolvers (R := String) [⟨0, 1⟩, ⟨1, 1⟩, ⟨2, 1⟩]
        (Except.error "boom"))[0]? =
      some (SettleOutcome.rejectedWith "boom") :=
  ⟨(positional_resolution [⟨0, 1⟩, ⟨1, 1⟩, ⟨2, 1⟩] ["r0", "r1"] "boom" 2
      (by decide)).2.1 (by decide),
   (positional_resolution [⟨0, 1⟩, ⟨1, 1⟩, ⟨2, 1⟩] ["r0", "r1"] "boom" 0
      (by decide)).2.2.1⟩

/- ## Claim C10: queue/resolver alignment invariant -/

theorem map_insertIdx_comm (f : α → β) (a : α) :
    ∀ (n : Nat) (l : List α), (l.insertIdx n a).map f = (l.map f).insertIdx n (f a)
  | 0, _ => rfl
  | _ + 1, [] => rfl
  | n + 1, x :: xs => by
      simp [List.insertIdx_succ_cons, map_insertIdx_comm f a n xs]

/-- The alignment invariant: the resolver list is the pointwise image of
the queue under "same creating `add()` call, same priority". -/
def alignedQR (st : BatchState T) : Prop :=
  st.queue.map (fun x => (x.callId, x.priority)) =
    st.resolvers.map (fun r => (r.callId, r.priority))

/-- C10: if the queue and resolver arrays are aligned, they have equal
length, corresponding entries were created by the same `add()` call and
carry the same priority, and both mutation steps (`add()`'s paired splice
at one index, `processBatch()`'s paired splice off the front) preserve
the alignment. -/
theorem queue_resolver_alignment {T : Type} (st : BatchState T) (item : T)
    (p : Int) (nowMs cid : Nat) (h : alignedQR st) :
    st.queue.length = st.resolvers.length ∧
    (∀ i (hq : i < st.queue.length) (hr : i < st.resolvers.length),
        (st.queue.get ⟨i, hq⟩).callId = (st.resolvers.get ⟨i, hr⟩).callId ∧
        (st.queue.get ⟨i, hq⟩).priority = (st.resolvers.get ⟨i, hr⟩).priority) ∧
    alignedQR (batchAdd st item p nowMs cid) ∧
    alignedQR (processBatchSplit st).2 := by
  have hlen : st.queue.length = st.resolvers.length := by
    have := congrArg List.length h
    simpa using this
  refine ⟨hlen, ?_, ?_, ?_⟩
  · intro i hq hr
    have hi2 : ((st.queue.get ⟨i, hq⟩).callId, (st.queue.get ⟨i, hq⟩).priority) =
        ((st.resolvers.get ⟨i, hr⟩).callId, (st.resolvers.get ⟨i, hr⟩).priority) := by
      have hi := congrArg (fun l => l[i]?) h
      simpa [List.getElem?_map, List.getElem?_eq_getElem hq,
        List.getElem?_eq_getElem hr, List.get_eq_getElem] using hi
    exact ⟨congrArg Prod.fst hi2, congrArg Prod.snd hi2⟩
  · show (st.queue.insertIdx _ _).map _ = (st.resolvers.insertIdx _ _).map _
    rw [map_insertIdx_comm, map_insertIdx_comm, h]
  · show (st.queue.drop _).map _ = (st.resolvers.drop _).map _
    rw [List.map_drop, List.map_drop, h]

/-- C10 (witness): alignment is preserved when `add()` inserts a
priority-10 item into a singleton aligned state. -/
theorem queue_resolver_alignment_witness :
    alignedQR (batchAdd
      (⟨[⟨"x", 5, 0, 7⟩], [⟨7, 5⟩], 3, 2000, 0, 0, [], 0⟩ : BatchState String)
      "y" 10 1 8) :=
  (queue_resolver_alignment
    (⟨[⟨"x", 5, 0, 7⟩], [⟨7, 5⟩], 3, 2000, 0, 0, [], 0⟩ : BatchState String)
    "y" 10 1 8 rfl).2.2.1

/- ## AI provider manager (src/backend/accessibot/ai-providers.ts) -/

/-- Request complexity tier (`"simple" | "medium" | "complex"`). -/
inductive Complexity where
  | simple
  | medium
  | complex
deriving Repr, DecidableEq

/-- An AI provider (`AIProvider`, src/backend/accessibot/ai-providers.ts
lines 12-20).  The network `client` object is environmental and omitted. -/
structure AIProvider where
  name : String
  model : String
  costPerToken : Rat
  maxTokens : Nat
  isAvailable : Bool
  priority : Nat
deriving Repr, DecidableEq

/-- Per-provider running statistics
(`providerStats` map values, src/backend/accessibot/ai-providers.ts line 129). -/
structure ProviderStats where
  successes : Nat
  failures : Nat
  totalCost : Rat
deriving Repr, DecidableEq

/-- `hay.includes(needle)`: prefix test helper. -/
def charsPrefix : List Char → List Char → Bool
  | [], _ => true
  | _ :: _, [] => false
  | a :: as, b :: bs => a == b && charsPrefix as bs

/-- `hay.includes(needle)`: containment of `needle` at any position. -/
def charsContains (needle : List Char) : List Char → Bool
  | [] => charsPrefix needle []
  | c :: t => charsPrefix needle (c :: t) || charsContains needle t

/-- JavaScript `hay.includes(sub)`. -/
def strIncludes (hay sub : String) : Bool :=
  charsContains sub.toList hay.toList

/-- The complexity filter of `selectProvider`
(src/backend/accessibot/ai-providers.ts lines 171-185): `simple` keeps only
Mini/Haiku/Flash variants, `complex` excludes Mini and Flash variants,
`medium` keeps everything. -/
def complexityFilter (c : Complexity) (p : AIProvider) : Bool :=
  match c with
  | .simple =>
      strIncludes p.name "Mini" || strIncludes p.name "Haiku" ||
        strIncludes p.name "Flash"
  | .complex => !strIncludes p.name "Mini" && !strIncludes p.name "Flash"
  | .medium => true

/-- The provider score of `selectProvider`
(src/backend/accessibot/ai-providers.ts lines 193-204): estimated cost plus
a reliability penalty `(1 - successRate) * 10`, with success rate defaulting
to 1/2 for a provider with no history. -/
def providerScore (stats : String → ProviderStats) (estimatedTokens : Nat)
    (p : AIProvider) : Rat :=
  let s := stats p.name
  let totalRequests := s.successes + s.failures
  let successRate : Rat :=
    if totalRequests > 0 then (s.successes : Rat) / (totalRequests : Rat) else 1/2
  (estimatedTokens : Rat) / 1000 * p.costPerToken + (1 - successRate) * 10

/-- `scoredProviders.sort((a, b) => a.score - b.score)[0]`: the stable
ascending sort followed by taking the head selects the first candidate in
list order among those of strictly minimal score. -/
def pickBestScored (stats : String → ProviderStats) (estimatedTokens : Nat) :
    List AIProvider → Option AIProvider
  | [] => none
  | p :: ps =>
      some (ps.foldl
        (fun best q =>
          if providerScore stats estimatedTokens q <
              providerScore stats estimatedTokens best then q else best)
        p)

/-- The selection result (`ProviderSelection`,
src/backend/accessibot/ai-providers.ts lines 121-125; the human-readable
`reason` string is omitted). -/
structure ProviderSelection where
  provider : AIProvider
  estimatedCost : Rat
deriving Repr, DecidableEq

/-- `AIProviderManager.selectProvider`
(src/backend/accessibot/ai-providers.ts lines 151-233), over an explicit
provider list (the `individual`/`batch` sub-list for the request type) and
stats map: filter to available providers, apply the token-capacity and
complexity filters, fall back to all available providers when the filter
empties the field, and pick the lowest-scored candidate. -/
def selectProvider (providers : List AIProvider) (stats : String → ProviderStats)
    (estimatedTokens : Nat) (complexity : Complexity) : Option ProviderSelection :=
  let availableProviders := providers.filter (·.isAvailable)
  if availableProviders.isEmpty then none
  else
    let suitable := availableProviders.filter fun p =>
      !(decide (estimatedTokens > p.maxTokens)) && complexityFilter complexity p
    let suitable := if suitable.isEmpty then availableProviders else suitable
    match pickBestScored stats estimatedTokens suitable with
    | none => none
    | some p => some ⟨p, (estimatedTokens : Rat) / 1000 * p.costPerToken⟩

/-- Result of the per-failure handler in `executeWithFallback`'s catch
block (src/backend/accessibot/ai-providers.ts lines 289-306): the updated
stats, the provider's availability after the step, and the scheduled
automatic re-enable time (present exactly when the step disabled the
provider; `setTimeout(..., 5 * 60 * 1000)` is modelled by recording
`now + 5 * 60 * 1000`). -/
structure FailureUpdate where
  stats : ProviderStats
  isAvailable : Bool
  reEnableAt : Option Nat
deriving Repr, DecidableEq

/-- The catch block of `executeWithFallback` for one failed attempt
(src/backend/accessibot/ai-providers.ts lines 289-306): increment the
failure count; if the incremented failures exceed both twice the successes
and 3, mark the provider unavailable and schedule its re-enable 5 minutes
later. -/
def recordFailure (s : ProviderStats) (nowMs : Nat) : FailureUpdate :=
  if s.failures + 1 > s.successes * 2 ∧ s.failures + 1 > 3 then
    ⟨{ s with failures := s.failures + 1 }, false, some (nowMs + 5 * 60 * 1000)⟩
  else
    ⟨{ s with failures := s.failures + 1 }, true, none⟩

/-- State threaded through `executeWithFallback`: the provider list for the
request type, the stats map, and the set of scheduled re-enable timers
(modelling the `setTimeout` calls). -/
structure EwfState where
  providers : List AIProvider
  stats : String → ProviderStats
  reEnableTimers : List (String × Nat)

/-- Failure conditions of `executeWithFallback`. -/
inductive EwfError where
  /-- `throw new Error("No AI providers available")` -/
  | noProvidersAvailable
  /-- `throw new Error("No suitable AI provider found")` -/
  | noSuitableProvider
  /-- the last attempt's provider error is rethrown -/
  | lastAttemptFailed
  /-- `throw new Error("All AI providers failed")` (unreachable fallthrough) -/
  | allFailed
deriving Repr, DecidableEq

/-- Stats-map update on success
(src/backend/accessibot/ai-providers.ts lines 277-280). -/
def statsOnSuccess (stats : String → ProviderStats) (name : String) (cost : Rat) :
    String → ProviderStats :=
  fun k =>
    if k = name then
      { stats name with successes := (stats name).successes + 1,
                        totalCost := (stats name).totalCost + cost }
    else stats k

/-- The whole-state effect of one failed attempt on provider `pname`
(the catch block, src/backend/accessibot/ai-providers.ts lines 289-306):
the stats map records the failure, and when the circuit-breaker condition
trips, the provider is marked unavailable and a re-enable is scheduled for
5 minutes later. -/
def failApply (st : EwfState) (pname : String) (nowMs : Nat) : EwfState :=
  let fu := recordFailure (st.stats pname) nowMs
  let stats2 : String → ProviderStats :=
    fun k => if k = pname then fu.stats else st.stats k
  if fu.isAvailable then
    { st with stats := stats2 }
  else
    { providers := st.providers.map fun q =>
        if q.name = pname then { q with isAvailable := false } else q,
      stats := stats2,
      reEnableTimers := st.reEnableTimers ++ [(pname, nowMs + 5 * 60 * 1000)] }

/-- The attempt loop of `executeWithFallback`
(src/backend/accessibot/ai-providers.ts lines 254-313), with `fuel` the
number of attempts left (initially `min(3, availableProviders.length)`) and
`oracle` giving the provider call's outcome for each attempt index (the
response text on success, `none` when `generateText` throws).  Returns the
provider names attempted in sequence, the final state, and the result. -/
def ewfGo (estimatedTokens inputTokens : Nat) (complexity : Complexity)
    (oracle : Nat → Option String) (nowMs : Nat) :
    Nat → Nat → EwfState → List String → List String × EwfState × Except EwfError String
  | 0, _, st, attempts => (attempts, st, .error .allFailed)
  | fuel + 1, attemptIdx, st, attempts =>
      match selectProvider st.providers st.stats estimatedTokens complexity with
      | none => (attempts, st, .error .noSuitableProvider)
      | some sel =>
          let p := sel.provider
          let attempts2 := attempts ++ [p.name]
          match oracle attemptIdx with
          | some text =>
              let outputTokens := (text.length + 3) / 4
              let actualCost :=
                ((inputTokens + outputTokens : Nat) : Rat) / 1000 * p.costPerToken
              (attempts2,
               { st with stats := statsOnSuccess st.stats p.name actualCost },
               .ok text)
          | none =>
              let st2 := failApply st p.name nowMs
              if fuel = 0 then (attempts2, st2, .error .lastAttemptFailed)
              else ewfGo estimatedTokens inputTokens complexity oracle nowMs
                fuel (attemptIdx + 1) st2 attempts2

/-- `AIProviderManager.executeWithFallback`
(src/backend/accessibot/ai-providers.ts lines 236-316): token estimation
(`ceil(length / 4)`), the no-providers guard, and the bounded attempt loop.
`promptLength` is the prompt's character count. -/
def executeWithFallback (st : EwfState) (promptLength maxTokens : Nat)
    (complexity : Complexity) (oracle : Nat → Option String) (nowMs : Nat) :
    List String × EwfState × Except EwfError String :=
  let estimatedInputTokens := (promptLength + 3) / 4
  let totalEstimatedTokens := estimatedInputTokens + maxTokens
  let availableProviders := st.providers.filter (·.isAvailable)
  if availableProviders.isEmpty then ([], st, .error .noProvidersAvailable)
  else
    ewfGo totalEstimatedTokens estimatedInputTokens complexity oracle nowMs
      (min 3 availableProviders.length) 0 st []

/- ## Claim C2: circuit breaking with scheduled re-enable -/

/-- Every unavailable provider has a scheduled re-enable timer. -/
def disabledHaveTimers (st : EwfState) : Prop :=
  ∀ q ∈ st.providers, q.isAvailable = false → ∃ t, (q.name, t) ∈ st.reEnableTimers

theorem failApply_preserves_timers (st : EwfState) (pname : String) (nowMs : Nat)
    (h : disabledHaveTimers st) : disabledHaveTimers (failApply st pname nowMs) := by
  unfold failApply
  by_cases hav : (recordFailure (st.stats pname) nowMs).isAvailable
  · simp only [hav, if_true]
    exact h
  · simp only [hav, Bool.false_eq_true, if_false]
    intro q hq hdis
    obtain ⟨q0, hq0, rfl⟩ := List.mem_map.1 hq
    by_cases hname : q0.name = pname
    · refine ⟨nowMs + 5 * 60 * 1000, List.mem_append.2 (Or.inr ?_)⟩
      simp [hname]
    · simp only [if_neg hname] at hdis ⊢
      obtain ⟨t, ht⟩ := h q0 hq0 hdis
      exact ⟨t, List.mem_append.2 (Or.inl ht)⟩

theorem ewfGo_preserves_timers (estT inT : Nat) (cx : Complexity)
    (oracle : Nat → Option String) (nowMs : Nat) :
    ∀ (fuel aIdx : Nat) (st : EwfState) (attempts : List String),
      disabledHaveTimers st →
      disabledHaveTimers (ewfGo estT inT cx oracle nowMs fuel aIdx st attempts).2.1 := by
  intro fuel
  induction fuel with
  | zero => intro aIdx st attempts h; exact h
  | succ n ih =>
    intro aIdx st attempts h
    simp only [ewfGo]
    cases hsel : selectProvider st.providers st.stats estT cx with
    | none => exact h
    | some sel =>
      cases horacle : oracle aIdx with
      | some text => exact h
      | none =>
        by_cases hn : n = 0
        · simp only [hn, if_true]
          exact failApply_preserves_timers st sel.provider.name nowMs h
        · simp only [if_neg hn]
          exact ih (aIdx + 1) _ _ (failApply_preserves_timers st sel.provider.name nowMs h)

/-- C2: after a failed provider attempt the failure count increments by
one; the provider is marked unavailable if and only if its recorded
failures exceed both twice its recorded successes and 3; disabling always
comes with a re-enable scheduled exactly 5 minutes later (and a re-enable
is scheduled only when disabling); and through a whole
`executeWithFallback` call, every provider left unavailable has a
scheduled re-enable timer — the core never permanently disables a
provider. -/
theorem circuit_breaker_reenable (s : ProviderStats) (nowMs : Nat)
    (st : EwfState) (promptLength maxTokens : Nat) (cx : Complexity)
    (oracle : Nat → Option String) (h : disabledHaveTimers st) :
    (recordFailure s nowMs).stats.failures = s.failures + 1 ∧
    (recordFailure s nowMs).stats.successes = s.successes ∧
    ((recordFailure s nowMs).isAvailable = false ↔
      ((recordFailure s nowMs).stats.failures > (recordFailure s nowMs).stats.successes * 2 ∧
       (recordFailure s nowMs).stats.failures > 3)) ∧
    ((recordFailure s nowMs).isAvailable = false →
      (recordFailure s nowMs).reEnableAt = some (nowMs + 5 * 60 * 1000)) ∧
    ((recordFailure s nowMs).reEnableAt ≠ none ↔ (recordFailure s nowMs).isAvailable = false) ∧
    disabledHaveTimers
      (executeWithFallback st promptLength maxTokens cx oracle nowMs).2.1 := by
  refine ⟨?_, ?_, ?_, ?_, ?_, ?_⟩
  · unfold recordFailure; split <;> rfl
  · unfold recordFailure; split <;> rfl
  · unfold recordFailure
    split <;> rename_i hcond <;> simp_all
  · unfold recordFailure
    split <;> rename_i hcond <;> simp_all
  · unfold recordFailure
    split <;> rename_i hcond <;> simp_all
  · simp only [executeWithFallback]
    split
    · exact h
    · exact ewfGo_preserves_timers _ _ cx oracle nowMs _ 0 st [] h

/-- C2 (witness): a provider with 0 successes and 3 prior failures is
disabled by its 4th failure, with re-enable scheduled 300000ms later; the
state-level invariant holds for a one-provider state after a failing call. -/
theorem circuit_breaker_reenable_witness :
    (recordFailure ⟨0, 3, 0⟩ 1000).isAvailable = false ∧
    (recordFailure ⟨0, 3, 0⟩ 1000).reEnableAt = some 301000 ∧
    disabledHaveTimers
      (executeWithFallback ⟨[⟨"A", "model-a", 1, 100000, true, 1⟩],
          fun _ => ⟨0, 3, 0⟩, []⟩ 4000 0 .medium (fun _ => none) 1000).2.1 := by
  have h := circuit_breaker_reenable ⟨0, 3, 0⟩ 1000
    ⟨[⟨"A", "model-a", 1, 100000, true, 1⟩], fun _ => ⟨0, 3, 0⟩, []⟩
    4000 0 .medium (fun _ => none) (by intro q hq hdis; simp_all)
  refine ⟨?_, ?_, h.2.2.2.2.2⟩
  · exact h.2.2.1.2 (by decide)
  · exact h.2.2.2.1 (by decide)

/- ## Claim C4: bounded number of provider attempts -/

theorem ewfGo_attempts_length (estT inT : Nat) (cx : Complexity)
    (oracle : Nat → Option String) (nowMs : Nat) :
    ∀ (fuel aIdx : Nat) (st : EwfState) (attempts : List String),
      (ewfGo estT inT cx oracle nowMs fuel aIdx st attempts).1.length ≤
        attempts.length + fuel := by
  intro fuel
  induction fuel with
  | zero => intro aIdx st attempts; simp [ewfGo]
  | succ n ih =>
    intro aIdx st attempts
    simp only [ewfGo]
    cases hsel : selectProvider st.providers st.stats estT cx with
    | none => simp
    | some sel =>
      cases horacle : oracle aIdx with
      | some text => simp
      | none =>
        by_cases hn : n = 0
        · simp [hn]
        · simp only [if_neg hn]
          calc (ewfGo estT inT cx oracle nowMs n (aIdx + 1)
                  (failApply st sel.provider.name nowMs)
                  (attempts ++ [sel.provider.name])).1.length
              ≤ (attempts ++ [sel.provider.name]).length + n := ih (aIdx + 1) _ _
            _ = attempts.length + (n + 1) := by simp; omega

/-- C4 (amended): one `executeWithFallback` call makes at most
`min(3, availableProviderCount-at-call-time)` provider selections in
sequence (the attempted-provider list is bounded accordingly). -/
theorem fallback_attempts_bound (st : EwfState) (promptLength maxTokens : Nat)
    (cx : Complexity) (oracle : Nat → Option String) (nowMs : Nat) :
    (executeWithFallback st promptLength maxTokens cx oracle nowMs).1.length ≤
      min 3 (st.providers.filter (·.isAvailable)).length := by
  simp only [executeWithFallback]
  split
  · simp
  · calc (ewfGo _ _ cx oracle nowMs
            (min 3 (st.providers.filter (·.isAvailable)).length) 0 st []).1.length
        ≤ ([] : List String).length +
            min 3 (st.providers.filter (·.isAvailable)).length :=
          ewfGo_attempts_length _ _ cx oracle nowMs _ 0 st []
      _ = min 3 (st.providers.filter (·.isAvailable)).length := by simp

/-- Providers for the C4 counterexample: two configured, both available. -/
def providerA : AIProvider := ⟨"A", "model-a", 1, 100000, true, 1⟩

def providerB : AIProvider := ⟨"B", "model-b", 2, 100000, true, 2⟩

/-- Stats for the C4 counterexample: provider A has one recorded failure,
provider B has two, so both carry the maximal reliability penalty and A
stays cheapest at every re-selection. -/
def statsAB : String → ProviderStats :=
  fun k => if k = "A" then ⟨0, 1, 0⟩ else if k = "B" then ⟨0, 2, 0⟩ else ⟨0, 0, 0⟩

def ewfTwoProviderState : EwfState := ⟨[providerA, providerB], statsAB, []⟩

/-- C4 (counterexample): with two available providers and every provider
call failing, both attempts of `executeWithFallback` select provider "A"
(its score stays strictly below B's after its failure is recorded, since
neither trips the circuit breaker), so the attempted providers are NOT
pairwise distinct. -/
theorem fallback_attempts_not_distinct_counterexample :
    (executeWithFallback ewfTwoProviderState 4000 0 .medium (fun _ => none) 0).1 =
      ["A", "A"] ∧
    ¬ (executeWithFallback ewfTwoProviderState 4000 0 .medium (fun _ => none) 0).1.Nodup := by
  have h : (executeWithFallback ewfTwoProviderState 4000 0 .medium (fun _ => none) 0).1 =
      ["A", "A"] := by
    simp [executeWithFallback, ewfGo, ewfTwoProviderState, providerA, providerB, failApply,
      recordFailure, statsOnSuccess, selectProvider, pickBestScored, providerScore, statsAB,
      complexityFilter]
  exact ⟨h, by rw [h]; decide⟩

/- ## Fingerprint cache (src/backend/accessibot/cache.ts) -/

/-- A row of the `ai_fixes` table (`CachedFix`,
src/backend/accessibot/cache.ts lines 7-11).  Timestamps are epoch
milliseconds. -/
structure CacheRow where
  issueHash : String
  fixedCodeSnippet : String
  createdAt : Int
deriving Repr, DecidableEq

/-- `CacheConfig` (src/backend/accessibot/cache.ts lines 13-17). -/
structure CacheConfig where
  defaultTtlDays : Nat
  cleanupIntervalDays : Nat
  deepCleanupIntervalDays : Nat
deriving Repr, DecidableEq

/-- `defaultCacheConfig` (src/backend/accessibot/cache.ts lines 20-24). -/
def defaultCacheConfig : CacheConfig :=
  { defaultTtlDays := 7, cleanupIntervalDays := 30, deepCleanupIntervalDays := 7 }

/-- `cacheFix` (src/backend/accessibot/cache.ts lines 44-52): an upsert —
`ON CONFLICT (issue_hash) DO UPDATE` replaces both the value and
`created_at` of an existing row, otherwise a new row is inserted. -/
def cacheFix (tbl : List CacheRow) (issueHash fixedCodeSnippet : String)
    (nowMs : Int) : List CacheRow :=
  if tbl.any (fun r => r.issueHash == issueHash) then
    tbl.map fun r =>
      if r.issueHash == issueHash then ⟨issueHash, fixedCodeSnippet, nowMs⟩ else r
  else
    tbl ++ [⟨issueHash, fixedCodeSnippet, nowMs⟩]

/-- `getCachedFix` (src/backend/accessibot/cache.ts lines 55-66): the SQL
query returns a row only when `issue_hash` matches AND
`created_at > cutoffDate` with `cutoffDate = now - ttlDays in ms`; the
JavaScript `result?.fixed_code_snippet || null` maps an empty-string value
to `null` as well. -/
def getCachedFix (tbl : List CacheRow) (issueHash : String) (nowMs : Int)
    (config : CacheConfig) : Option String :=
  let cutoffDate := nowMs - (config.defaultTtlDays : Int) * 24 * 60 * 60 * 1000
  match tbl.find? (fun r => r.issueHash == issueHash && decide (cutoffDate < r.createdAt)) with
  | some r => if r.fixedCodeSnippet = "" then none else some r.fixedCodeSnippet
  | none => none

/- ## Claim C6: cache TTL semantics -/

/-- C6 (counterexample): an entry created at time 0 read at exactly the
TTL (7 days = 604800000 ms later) is treated as ABSENT by the code
(`created_at > cutoff` is strict), although `now - createdAt > ttl` is
false — refuting "returns absent iff now - createdAt > ttl" at the
boundary. -/
theorem cache_ttl_boundary_counterexample :
    getCachedFix [⟨"h", "fix", 0⟩] "h" 604800000 defaultCacheConfig = none ∧
    ¬ ((604800000 : Int) - 0 >
        (defaultCacheConfig.defaultTtlDays : Int) * 24 * 60 * 60 * 1000) := by
  constructor
  · decide
  · decide

/-- C6 (amended): for a stored entry with non-empty fix text (and no other
row under its fingerprint), `get` returns the stored text iff the entry's
age is STRICTLY below the TTL, and returns absent iff
`now - createdAt ≥ ttl`; in particular age exactly equal to the TTL is
absent.  (An entry whose stored text is the empty string is also treated
as absent, by `|| null`.) -/
theorem cache_ttl_amended (tbl : List CacheRow) (h : String) (nowMs : Int)
    (config : CacheConfig) (r : CacheRow) (hr : r ∈ tbl) (hhash : r.issueHash = h)
    (huniq : ∀ r2 ∈ tbl, r2.issueHash = h → r2 = r) (hne : r.fixedCodeSnippet ≠ "") :
    (getCachedFix tbl h nowMs config = some r.fixedCodeSnippet ↔
      nowMs - r.createdAt < (config.defaultTtlDays : Int) * 24 * 60 * 60 * 1000) ∧
    (getCachedFix tbl h nowMs config = none ↔
      nowMs - r.createdAt ≥ (config.defaultTtlDays : Int) * 24 * 60 * 60 * 1000) := by
  have key : tbl.find?
      (fun r2 => r2.issueHash == h &&
        decide (nowMs - (config.defaultTtlDays : Int) * 24 * 60 * 60 * 1000 < r2.createdAt)) =
      if nowMs - (config.defaultTtlDays : Int) * 24 * 60 * 60 * 1000 < r.createdAt then
        some r
      else none := by
    split <;> rename_i hc
    · cases hfind : tbl.find? _ with
      | none =>
        rw [List.find?_eq_none] at hfind
        have hbad := hfind r hr
        simp [hhash, hc] at hbad
      | some y =>
        have hy := List.find?_some hfind
        have hmem := List.mem_of_find?_eq_some hfind
        simp only [Bool.and_eq_true, beq_iff_eq, decide_eq_true_eq] at hy
        rw [huniq y hmem hy.1]
    · rw [List.find?_eq_none]
      intro x hx
      by_cases hxh : x.issueHash = h
      · have hxr := huniq x hx hxh
        rw [hxr]
        simp [hhash, hc]
      · simp [hxh]
  have hval : getCachedFix tbl h nowMs config =
      if nowMs - (config.defaultTtlDays : Int) * 24 * 60 * 60 * 1000 < r.createdAt then
        some r.fixedCodeSnippet
      else none := by
    simp only [getCachedFix]
    rw [key]
    by_cases hc : nowMs - (config.defaultTtlDays : Int) * 24 * 60 * 60 * 1000 < r.createdAt
    · simp [hc, hne]
    · simp [hc]
  refine ⟨?_, ?_⟩ <;> rw [hval] <;> split <;> rename_i hc <;> simp <;> omega

/-- C6 (witness for the amended theorem): an entry aged 100ms is returned
within the TTL. -/
theorem cache_ttl_amended_witness :
    getCachedFix [⟨"h", "fix", 100⟩] "h" 200 defaultCacheConfig = some "fix" :=
  (cache_ttl_amended [⟨"h", "fix", 100⟩] "h" 200 defaultCacheConfig
    ⟨"h", "fix", 100⟩ (by simp) rfl (by decide) (by decide)).1.mpr (by decide)

/- ## Rate limiter (src/backend/accessibot/rate-limiter.ts) -/

/-- `RateLimitConfig` (src/backend/accessibot/rate-limiter.ts lines 7-11). -/
structure RateLimitConfig where
  maxRequests : Nat
  windowMs : Int
  identifier : String
deriving Repr, DecidableEq

/-- The `openAIRateLimiter` configuration
(src/backend/accessibot/rate-limiter.ts lines 66-70). -/
def openAIRateLimiterConfig : RateLimitConfig :=
  { maxRequests := 50, windowMs := 60 * 60 * 1000, identifier := "openai-api" }

/-- A row of the `rate_limit_requests` table. -/
structure RateLimitRow where
  identifier : String
  createdAt : Int
deriving Repr, DecidableEq

/-- The result record of `checkLimit`. -/
structure CheckLimitResult where
  allowed : Bool
  resetTime : Int
  remaining : Int
deriving Repr, DecidableEq

/-- `RateLimiter.checkLimit` (src/backend/accessibot/rate-limiter.ts
lines 20-62): delete the identifier's rows strictly older than
`now - windowMs`, count the identifier's remaining rows with
`created_at ≥ windowStart`, then either refuse (count at the limit;
nothing recorded) or record a row at `now` and allow.  Returns the new
table and the result record. -/
def checkLimit (tbl : List RateLimitRow) (config : RateLimitConfig) (nowMs : Int) :
    List RateLimitRow × CheckLimitResult :=
  let windowStart := nowMs - config.windowMs
  let tbl2 := tbl.filter fun e =>
    !(e.identifier == config.identifier && decide (e.createdAt < windowStart))
  let currentCount := (tbl2.filter fun e =>
    e.identifier == config.identifier && decide (windowStart ≤ e.createdAt)).length
  let remaining := max 0 ((config.maxRequests : Int) - currentCount)
  let resetTime := nowMs + config.windowMs
  if currentCount ≥ config.maxRequests then
    (tbl2, ⟨false, resetTime, 0⟩)
  else
    (tbl2 ++ [⟨config.identifier, nowMs⟩], ⟨true, resetTime, remaining - 1⟩)

/- ## Claim C9: rate limiter sliding window -/

/-- Counting in-window rows is unaffected by first evicting the strictly
older rows. -/
theorem filter_evict_count (tbl : List RateLimitRow) (config : RateLimitConfig)
    (windowStart : Int) :
    ((tbl.filter fun e =>
        !(e.identifier == config.identifier && decide (e.createdAt < windowStart))).filter
      fun e => e.identifier == config.identifier && decide (windowStart ≤ e.createdAt)) =
    tbl.filter fun e =>
      e.identifier == config.identifier && decide (windowStart ≤ e.createdAt) := by
  rw [List.filter_filter]
  apply List.filter_congr
  intro x _
  by_cases hid : x.identifier = config.identifier
  · by_cases hin : windowStart ≤ x.createdAt
    · simp [hid, hin, not_lt.2 hin]
    · simp [hid, hin]
  · simp [hid]

/-- C9: `checkLimit` first evicts the identifier's recorded timestamps
strictly older than `now - windowMs`, then counts the identifier's
in-window timestamps (equivalently over the original table); if that
count is at least `maxRequests` it returns `allowed = false` with
`remaining = 0` and records nothing, otherwise it appends a fresh row at
`now` and returns `allowed = true` with
`remaining = maxRequests - count - 1`; `resetTime` is `now + windowMs`. -/
theorem rate_limiter_sliding_window (tbl : List RateLimitRow)
    (config : RateLimitConfig) (nowMs : Int) :
    checkLimit tbl config nowMs =
      (if (tbl.filter fun e => e.identifier == config.identifier &&
            decide (nowMs - config.windowMs ≤ e.createdAt)).length ≥ config.maxRequests
       then
        (tbl.filter fun e =>
          !(e.identifier == config.identifier &&
            decide (e.createdAt < nowMs - config.windowMs)),
         ⟨false, nowMs + config.windowMs, 0⟩)
       else
        ((tbl.filter fun e =>
            !(e.identifier == config.identifier &&
              decide (e.createdAt < nowMs - config.windowMs))) ++
          [⟨config.identifier, nowMs⟩],
         ⟨true, nowMs + config.windowMs,
          (config.maxRequests : Int) -
            (tbl.filter fun e => e.identifier == config.identifier &&
              decide (nowMs - config.windowMs ≤ e.createdAt)).length - 1⟩)) := by
  simp only [checkLimit, filter_evict_count]
  split <;> rename_i hcount
  · rfl
  · have hlt : ((tbl.filter fun e => e.identifier == config.identifier &&
        decide (nowMs - config.windowMs ≤ e.createdAt)).length : Int) <
        (config.maxRequests : Int) := by
      exact_mod_cast Nat.lt_of_not_le hcount
    have hmax : max 0 ((config.maxRequests : Int) -
        (tbl.filter fun e => e.identifier == config.identifier &&
          decide (nowMs - config.windowMs ≤ e.createdAt)).length) =
        (config.maxRequests : Int) -
          (tbl.filter fun e => e.identifier == config.identifier &&
            decide (nowMs - config.windowMs ≤ e.createdAt)).length := by
      omega
    rw [hmax]

/- ## AI service (src/backend/accessibot/ai-service.ts) -/

/-- `AccessibilityIssue` (src/unnamed/part_000 lines 10-18). -/
structure AccessibilityIssue where
  type : String
  severity : String
  description : String
  element : String
  line : Option Nat
  fix : String
  codeSnippet : String
deriving Repr, DecidableEq

/-- `DEMO_FIX` (src/backend/accessibot/ai-service.ts line 23). -/
def DEMO_FIX : String := "💡 Demo Suggestion: Add descriptive alt text or labels."

/-- `getPriorityFromSeverity` (src/backend/accessibot/ai-service.ts
lines 118-129). -/
def getPriorityFromSeverity (severity : String) : Int :=
  if severity = "high" then 10
  else if severity = "medium" then 5
  else if severity = "low" then 1
  else 0

/-- `enhanceIssuesWithAI` (src/backend/accessibot/ai-service.ts
lines 374-432): the early returns.  In demo mode, or when no provider is
available, every issue's `codeSnippet` is set to `DEMO_FIX` and the
function returns without touching the AI path.  The providers-available
remainder of the function (per-issue `getAIFixForIssue` with
`Promise.allSettled`) is abstracted by the `aiPath` parameter; it is never
consulted on the zero-provider paths the claim is about. -/
def enhanceIssuesWithAI (demoMode hasAvailableProviders : Bool)
    (aiPath : List AccessibilityIssue → Except String (List AccessibilityIssue))
    (issues : List AccessibilityIssue) : Except String (List AccessibilityIssue) :=
  if issues.isEmpty then .ok issues
  else if demoMode then
    .ok (issues.map fun i => { i with codeSnippet := DEMO_FIX })
  else if !hasAvailableProviders then
    .ok (issues.map fun i => { i with codeSnippet := DEMO_FIX })
  else aiPath issues

/- ## Claim C5: graceful degradation with zero providers -/

/-- C5: with zero configured providers (demo mode) or zero available
providers, `enhanceIssuesWithAI` completes without throwing — it returns
`ok` with every issue's `codeSnippet` set to the static `DEMO_FIX` — and
every issue in the result carries a non-empty fix string. -/
theorem graceful_degradation_no_providers (demoMode hasAvailableProviders : Bool)
    (aiPath : List AccessibilityIssue → Except String (List AccessibilityIssue))
    (issues : List AccessibilityIssue)
    (hzero : demoMode = true ∨ hasAvailableProviders = false) :
    enhanceIssuesWithAI demoMode hasAvailableProviders aiPath issues =
      .ok (issues.map fun i => { i with codeSnippet := DEMO_FIX }) ∧
    ∀ j ∈ issues.map (fun i => { i with codeSnippet := DEMO_FIX }), j.codeSnippet ≠ "" := by
  constructor
  · by_cases hempty : issues.isEmpty
    · have h0 : issues = [] := by simpa using hempty
      subst h0
      simp [enhanceIssuesWithAI]
    · rcases hzero with h | h <;> simp [enhanceIssuesWithAI, hempty, h]
  · intro j hj
    obtain ⟨i, _, rfl⟩ := List.mem_map.1 hj
    simp [DEMO_FIX]

/-- C5 (witness): a single-issue list in demo mode gets the demo fix. -/
theorem graceful_degradation_witness :
    enhanceIssuesWithAI true false (fun issues => .ok issues)
      [⟨"img-alt", "high", "d", "<img>", none, "f", "<img>"⟩] =
      .ok [⟨"img-alt", "high", "d", "<img>", none, "f", DEMO_FIX⟩] :=
  (graceful_degradation_no_providers true false (fun issues => .ok issues)
    [⟨"img-alt", "high", "d", "<img>", none, "f", "<img>"⟩] (Or.inl rfl)).1

/- ## Batch response parsing (src/backend/accessibot/ai-service.ts) -/

/-- One leftmost match of the regular expression `ISSUE_\d+:` at the head
of the character list: the literal `ISSUE_`, then at least one digit
(greedy — no backtracking is possible since `:` is not a digit), then `:`.
Returns the characters after the match. -/
def matchIssueMarker (cs : List Char) : Option (List Char) :=
  if charsPrefix ['I', 'S', 'S', 'U', 'E', '_'] cs then
    if ((cs.drop 6).takeWhile Char.isDigit).isEmpty then none
    else
      match (cs.drop 6).dropWhile Char.isDigit with
      | ':' :: tail => some tail
      | _ => none
  else none

theorem matchIssueMarker_length {cs rest : List Char}
    (h : matchIssueMarker cs = some rest) : rest.length < cs.length := by
  unfold matchIssueMarker at h
  split at h
  · split at h
    · exact absurd h (by simp)
    · split at h
      · rename_i heq
        cases h
        have h2 : ((cs.drop 6).dropWhile Char.isDigit).length ≤ (cs.drop 6).length :=
          (List.dropWhile_sublist _).length_le
        rw [heq] at h2
        simp only [List.length_cons, List.length_drop] at h2
        omega
      · exact absurd h (by simp)
  · exact absurd h (by simp)

/-- `response.split(/ISSUE_\d+:/)` on the character level: scan left to
right; at each position, a marker match ends the current piece, otherwise
the character joins the current piece.  `cur` is the current piece in
reverse, `acc` the finished pieces. -/
def splitIssueGo (cs : List Char) (cur : List Char) (acc : List String) : List String :=
  match h : matchIssueMarker cs with
  | some rest => splitIssueGo rest [] (acc ++ [String.mk cur.reverse])
  | none =>
      match cs with
      | [] => acc ++ [String.mk cur.reverse]
      | c :: t => splitIssueGo t (c :: cur) acc
termination_by cs.length
decreasing_by
  · exact matchIssueMarker_length h
  · simp

/-- JavaScript `response.split(/ISSUE_\d+:/)`. -/
def splitByIssueMarkers (response : String) : List String :=
  splitIssueGo response.toList [] []

/-- `BatchAIRequest` (src/backend/accessibot/ai-service.ts lines 11-14). -/
structure BatchAIRequest where
  issue : AccessibilityIssue
  issueHash : String
deriving Repr, DecidableEq

/-- `BatchAIResponse` (src/backend/accessibot/ai-service.ts lines 16-21). -/
structure BatchAIResponse where
  issueHash : String
  fixedCode : String
  provider : Option String
  cost : Option Rat
deriving Repr, DecidableEq

/-- `parseBatchResponse` (src/backend/accessibot/ai-service.ts
lines 249-304): split the response at `ISSUE_\d+:` markers and drop the
part before the first marker (`.slice(1)`); position `i` gets the trimmed
section `i` when it is non-empty, and falls back to the request's original
`codeSnippet` when the section is empty or missing (the second loop for
`sections.length ≤ i < requests.length`).  The `try`/`catch` fallback
cannot fire in this model since the splitting is total. -/
def parseBatchResponse (response : String) (requests : List BatchAIRequest)
    (provider : String) (totalCost : Rat) : List BatchAIResponse :=
  let costPerRequest := totalCost / (requests.length : Rat)
  let sections := (splitByIssueMarkers response).drop 1
  requests.enum.map fun pair =>
    match sections[pair.1]? with
    | some sec =>
        if sec.trim ≠ "" then
          ⟨pair.2.issueHash, sec.trim, some provider, some costPerRequest⟩
        else
          ⟨pair.2.issueHash, pair.2.issue.codeSnippet, some provider, some costPerRequest⟩
    | none => ⟨pair.2.issueHash, pair.2.issue.codeSnippet, some provider, some costPerRequest⟩

/- ## Claim C8: batch completeness at the orchestrator layer -/

/-- An issue whose original (default) code snippet is the empty string. -/
def emptySnippetIssue : AccessibilityIssue :=
  ⟨"img-alt", "high", "d", "<img>", none, "", ""⟩

/-- C8 (counterexample): for a response with no `ISSUE_` sections at all
(zero sections for a one-request batch), the request without a usable
section is resolved with its original code snippet — which here is the
EMPTY string, refuting "never with an empty string": the code imposes no
non-emptiness on the fallback. -/
theorem batch_completeness_empty_default_counterexample :
    ((splitByIssueMarkers "").drop 1) = [] ∧
    ((parseBatchResponse "" [⟨emptySnippetIssue, "h1"⟩] "P" 0).map
      fun r => r.fixedCode) = [""] := by
  constructor
  · simp [splitByIssueMarkers, splitIssueGo, matchIssueMarker, charsPrefix]
  · simp [parseBatchResponse, splitByIssueMarkers, splitIssueGo, matchIssueMarker,
      charsPrefix, emptySnippetIssue]

/-- C8 (amended): when the response parses into fewer sections than there
are requests, or a request's section trims to the empty string, that
request's entry in the parsed result is its original `codeSnippet` — a
plain value, never an error, and the result list always has exactly one
entry per request (so no position is left to the scheduler's no-result
rejection).  The entry is non-empty exactly when the original snippet is;
the code does not itself guarantee non-emptiness. -/
theorem batch_completeness_amended (response : String)
    (requests : List BatchAIRequest) (provider : String) (totalCost : Rat)
    (i : Nat) (req : BatchAIRequest) (hreq : requests[i]? = some req)
    (hsec : ((splitByIssueMarkers response).drop 1)[i]? = none ∨
      (∃ sec, ((splitByIssueMarkers response).drop 1)[i]? = some sec ∧ sec.trim = "")) :
    (parseBatchResponse response requests provider totalCost).length = requests.length ∧
    (parseBatchResponse response requests provider totalCost)[i]? =
      some ⟨req.issueHash, req.issue.codeSnippet, some provider,
            some (totalCost / (requests.length : Rat))⟩ := by
  constructor
  · simp [parseBatchResponse]
  · have henum : requests.enum[i]? = some (i, req) := by
      rw [List.getElem?_enum, hreq]
      rfl
    rcases hsec with hnone | ⟨sec, hsome, htrim⟩
    · have h1 : (splitByIssueMarkers response)[i + 1]? = none := by simpa using hnone
      simp [parseBatchResponse, List.getElem?_map, henum, h1]
    · have h1 : (splitByIssueMarkers response)[i + 1]? = some sec := by simpa using hsome
      simp [parseBatchResponse, List.getElem?_map, henum, h1, htrim]

/-- C8 (witness): the spec's own example shape — a request beyond the
parsed sections (here: an empty response, so zero sections for one
request) resolves to its original default snippet. -/
theorem batch_completeness_witness :
    (parseBatchResponse "" [⟨⟨"img-alt", "high", "d", "<img>", none, "f", "<img>"⟩, "h1"⟩]
      "P" 0).length = 1 ∧
    ((parseBatchResponse "" [⟨⟨"img-alt", "high", "d", "<img>", none, "f", "<img>"⟩, "h1"⟩]
      "P" 0)[0]?).map (fun r => r.fixedCode) = some "<img>" := by
  have h := batch_completeness_amended ""
    [⟨⟨"img-alt", "high", "d", "<img>", none, "f", "<img>"⟩, "h1"⟩] "P" 0 0
    ⟨⟨"img-alt", "high", "d", "<img>", none, "f", "<img>"⟩, "h1"⟩ rfl
    (Or.inl (by simp [splitByIssueMarkers, splitIssueGo, matchIssueMarker, charsPrefix]))
  exact ⟨h.1, by rw [h.2]; rfl⟩
